import Mathlib

/-!
Verification of the request handling and connection concurrency of
`web-server/httpd.py` (class `WebServer`, `ThreadPool`, `Worker`).

The per-connection code is pure once the operating system is modelled:
a filesystem maps normalized absolute paths to byte contents, the bytes
read from the socket arrive as one decoded string, and the handler is a
function from that string to the list of socket actions it performs
(`send` of an HTTP message, `close`).  Byte sequences are `List Nat`.
An `HttpMessage` keeps the header chunks exactly as the Python code
accumulates them with `header += chunk`; the bytes on the wire are the
UTF-8 encoding of the concatenated chunks followed by the body bytes.

The accept loop (`WebServer._listen`) and the queue/worker machinery
(`ThreadPool`, `Worker`) are modelled as a labelled transition system
`PoolStep` whose traces over-approximate the interleavings of the real
bounded pool: neither the worker count nor the queue capacity is
bounded in the model, so a safety property proved for every trace of
the model in particular holds for the real pool.
-/

/-- A filesystem: maps normalized absolute paths to file contents (bytes).
`none` means the path does not exist or cannot be opened for reading. -/
def FileSystem : Type := String → Option (List Nat)

/-- Python `str.split(sep)` on a list of characters, for a single-character
separator: splits at every occurrence and keeps empty pieces, so the result
is never the empty list. -/
def splitChars (sep : Char) : List Char → List (List Char)
  | [] => [[]]
  | c :: cs =>
    match splitChars sep cs with
    | [] => [[]]
    | r :: rs => if c = sep then [] :: r :: rs else (c :: r) :: rs

/-- Python `str.split(sep)` for a single-character separator, on strings. -/
def pySplit (sep : Char) (s : String) : List String :=
  (splitChars sep s.data).map (fun cs => String.mk cs)

/-- Python `str.endswith(suffix)`. -/
def pyEndsWith (s suffix : String) : Bool :=
  suffix.data.isSuffixOf s.data

/-- Python `str.encode()`.  The server only ever encodes ASCII literals and
ASCII header text, for which the UTF-8 bytes coincide with the code points. -/
def encodeStr (s : String) : List Nat :=
  s.data.map Char.toNat

/-- One step of POSIX path normalization: `""` and `"."` segments are
dropped, `".."` removes the previous segment (staying at the root when
there is none), any other segment is kept. -/
def normStep (acc : List String) (seg : String) : List String :=
  if seg = "" ∨ seg = "." then acc
  else if seg = ".." then acc.dropLast
  else acc ++ [seg]

/-- How the operating system resolves an absolute path when the server
calls `open` or `os.path.getsize`: `"."` and `".."` segments are resolved
against the directory structure, so `".."` can escape a prefix directory. -/
def normalizePath (p : String) : String :=
  "/" ++ String.intercalate "/" ((pySplit '/' p).foldl normStep [])

/-- `open(path, "rb")` / reading a file: look the normalized path up in the
filesystem. -/
def fsOpen (fs : FileSystem) (p : String) : Option (List Nat) :=
  fs (normalizePath p)

/-- `os.path.getsize(path)`: the byte length of the file at the normalized
path.  (Python raises when the file is missing; the server only calls this
on a path it has just opened successfully, where the two agree.) -/
def getsize (fs : FileSystem) (p : String) : Nat :=
  ((fsOpen fs p).getD []).length

/-- The `if/elif` suffix table inside the `response_code == 200` branch of
`WebServer._generate_headers` (httpd.py lines 95-110). -/
def mimetype_of (request_file : String) : String :=
  if pyEndsWith request_file ".jpg" || pyEndsWith request_file ".jpeg" then "image/jpeg"
  else if pyEndsWith request_file ".png" then "image/png"
  else if pyEndsWith request_file ".gif" then "image/gif"
  else if pyEndsWith request_file ".swf" then "application/x-shockwave-flash"
  else if pyEndsWith request_file ".css" then "text/css"
  else if pyEndsWith request_file ".js" then "application/javascript"
  else if pyEndsWith request_file ".html" then "text/html"
  else "text/html"

/-- `WebServer._generate_headers` (httpd.py lines 83-121).  Each list
element is one `header += chunk` of the Python code, in order; the header
string sent on the wire is their concatenation.  `tnow` stands for the
`time.strftime` timestamp taken at emission time.  Note the function has
branches only for 200 and 404: any other `response_code` (the handler
passes 405) adds no status line at all. -/
def generate_headers (fs : FileSystem) (tnow : String) (response_code : Nat)
    (request_file : String) : List String :=
  (if response_code = 200 then
    ["HTTP/1.1 200 OK\n",
     "Content-length: " ++ toString (getsize fs request_file) ++ "\n",
     "Content-type: " ++ mimetype_of request_file ++ "\n"]
  else if response_code = 404 then
    ["HTTP/1.1 404 Not Found\n"]
  else [])
  ++ ["Date: " ++ tnow ++ "\n",
      "Server: Mikhail Samoylov for Otus Python Server\n",
      "Connection: close\n\n"]

/-- One HTTP message as the handler sends it: the header chunks (their
concatenation, UTF-8 encoded, goes first on the wire) followed by the body
bytes. -/
structure HttpMessage where
  header : List String
  body : List Nat
deriving DecidableEq

/-- An observable action the handler performs on the client socket. -/
inductive SockAction where
  | send (m : HttpMessage)
  | close
deriving DecidableEq

/-- The bytes a message puts on the wire. -/
def wireBytes (m : HttpMessage) : List Nat :=
  encodeStr (String.join m.header) ++ m.body

/-- All bytes written to the socket by a list of actions. -/
def bytesWritten (acts : List SockAction) : List Nat :=
  acts.foldr (fun a acc => match a with
    | SockAction.send m => wireBytes m ++ acc
    | SockAction.close => acc) []

/-- The fixed 404 error body (httpd.py lines 181-182). -/
def err404Body : List Nat :=
  encodeStr ("<html><body><center><h3>Error 404: File not found</h3><p>"
    ++ "Python HTTP Server</p></center></body></html>")

/-- The fixed 405 error body (httpd.py lines 192-193). -/
def err405Body : List Nat :=
  encodeStr ("<html><body><center><h3>Error 405: Method not allowed</h3><p>"
    ++ "Python HTTP Server</p></center></body></html>")

/-- The query stripping and index substitution applied to the path token
(httpd.py lines 156-164): drop everything from the first `?` on, then map
the literal `"/"` to `"/index.html"` and the literal `"/directory/"` to
`"/directory/index.html"`; every other path is kept as it is. -/
def resolve_target (rawPath : String) : String :=
  let file_requested := (pySplit '?' rawPath).headD ""
  if file_requested = "/" then "/index.html"
  else if file_requested = "/directory/" then "/directory/index.html"
  else file_requested

/-- The GET/HEAD branch of `WebServer._handle_client` (httpd.py lines
154-189): resolve the path, form `doc_root + file_requested`, try to open
it; on success send the 200 headers and (for GET only) the file bytes, on
failure send the 404 headers and (for GET only) the fixed error body; then
close. -/
def serve_request (fs : FileSystem) (doc_root tnow method rawPath : String) :
    List SockAction :=
  let file_requested := resolve_target rawPath
  let filepath_to_serve := doc_root ++ file_requested
  match fsOpen fs filepath_to_serve with
  | some content =>
    let response_header := generate_headers fs tnow 200 filepath_to_serve
    [SockAction.send ⟨response_header, if method = "GET" then content else []⟩,
     SockAction.close]
  | none =>
    let response_header := generate_headers fs tnow 404 filepath_to_serve
    [SockAction.send ⟨response_header, if method = "GET" then err404Body else []⟩,
     SockAction.close]

/-- `WebServer._handle_client` (httpd.py lines 135-199) for one accepted
connection.  `data` is the decoded result of the single `recv`; every
branch of the Python loop ends in `break`, so the loop body runs once.
`Except.error` models an exception escaping the handler (to be caught by
the worker loop): `data.split(' ')[1]` raises `IndexError` when the split
has no second element.  When `data` is empty the code only breaks out of
the loop: no send and no close happen. -/
def handle_client (fs : FileSystem) (doc_root tnow data : String) :
    Except String (List SockAction) :=
  if data = "" then Except.ok []
  else
    let request_method := (pySplit ' ' data).headD ""
    if request_method = "GET" ∨ request_method = "HEAD" then
      match (pySplit ' ' data)[1]? with
      | none => Except.error "IndexError: list index out of range"
      | some rawPath =>
        Except.ok (serve_request fs doc_root tnow request_method rawPath)
    else
      Except.ok [SockAction.send ⟨generate_headers fs tnow 405 "", err405Body⟩,
                 SockAction.close]

/-- A UTF-8 continuation byte, `0x80`-`0xBF`. -/
def isCont (b : Nat) : Bool :=
  0x80 ≤ b && b ≤ 0xBF

/-- Strict UTF-8 decoding of a byte sequence, as Python `bytes.decode()`
performs it on the buffer `recv` returned (httpd.py line 145): one-byte
sequences are `0x00`-`0x7F`; two-byte lead bytes are `0xC2`-`0xDF` (so
overlong encodings are rejected); three-byte lead bytes are `0xE0`-`0xEF`
with the first continuation restricted to `0xA0`-`0xBF` after `0xE0`
(overlong) and to `0x80`-`0x9F` after `0xED` (surrogates); four-byte lead
bytes are `0xF0`-`0xF4` with the first continuation restricted to
`0x90`-`0xBF` after `0xF0` (overlong) and to `0x80`-`0x8F` after `0xF4`
(beyond U+10FFFF).  `none` models `UnicodeDecodeError`. -/
def utf8Decode : List Nat → Option (List Char)
  | [] => some []
  | b :: rest =>
    if b ≤ 0x7F then
      (utf8Decode rest).map (fun cs => Char.ofNat b :: cs)
    else if 0xC2 ≤ b && b ≤ 0xDF then
      match rest with
      | b1 :: rest2 =>
        if isCont b1 then
          (utf8Decode rest2).map
            (fun cs => Char.ofNat ((b - 0xC0) * 0x40 + (b1 - 0x80)) :: cs)
        else none
      | [] => none
    else if 0xE0 ≤ b && b ≤ 0xEF then
      match rest with
      | b1 :: b2 :: rest3 =>
        if (if b = 0xE0 then 0xA0 ≤ b1 && b1 ≤ 0xBF
            else if b = 0xED then 0x80 ≤ b1 && b1 ≤ 0x9F
            else isCont b1) && isCont b2 then
          (utf8Decode rest3).map
            (fun cs => Char.ofNat
              ((b - 0xE0) * 0x1000 + (b1 - 0x80) * 0x40 + (b2 - 0x80)) :: cs)
        else none
      | _ => none
    else if 0xF0 ≤ b && b ≤ 0xF4 then
      match rest with
      | b1 :: b2 :: b3 :: rest4 =>
        if (if b = 0xF0 then 0x90 ≤ b1 && b1 ≤ 0xBF
            else if b = 0xF4 then 0x80 ≤ b1 && b1 ≤ 0x8F
            else isCont b1) && isCont b2 && isCont b3 then
          (utf8Decode rest4).map
            (fun cs => Char.ofNat
              ((b - 0xF0) * 0x40000 + (b1 - 0x80) * 0x1000
                + (b2 - 0x80) * 0x40 + (b3 - 0x80)) :: cs)
        else none
      | _ => none
    else none

/-- Python `bytes.decode()` as a string result. -/
def pyDecode (bs : List Nat) : Option String :=
  (utf8Decode bs).map (fun cs => String.mk cs)

/-- `WebServer._handle_client` over the raw bytes `recv` returned:
`data = client.recv(PACKET_SIZE).decode()` (httpd.py line 145) raises
`UnicodeDecodeError` when the bytes are not valid UTF-8, and that
exception escapes the handler (to be caught by the worker loop) before
any parsing happens; otherwise the decoded string is handled as in
`handle_client`. -/
def handle_connection (fs : FileSystem) (doc_root tnow : String)
    (bs : List Nat) : Except String (List SockAction) :=
  match pyDecode bs with
  | none => Except.error "UnicodeDecodeError"
  | some data => handle_client fs doc_root tnow data

/-- The actions of a handler run, empty when an exception escaped. -/
def actionsOf : Except String (List SockAction) → List SockAction
  | Except.ok acts => acts
  | Except.error _ => []

/-- Whether a header chunk list contains a Content-Length line (the code
writes the name as `Content-length`). -/
def hasContentLength (hdr : List String) : Bool :=
  hdr.any (fun line => List.isPrefixOf ("Content-length".data) line.data)

/-- The empty filesystem. -/
def fsEmpty : FileSystem := fun _ => none

/-- Contents of `/etc/passwd` in the traversal scenario. -/
def passwdContent : List Nat := encodeStr "root:x:0:0:root:/root:/bin/bash"

/-- A filesystem whose only file is `/etc/passwd`; in particular the
document root `/var/www` contains nothing. -/
def fsC1 : FileSystem := fun p =>
  if p = "/etc/passwd" then some passwdContent else none

/-- A filesystem with a two-byte `/r/index.html` under document root `/r`. -/
def fsDoc : FileSystem := fun p =>
  if p = "/r/index.html" then some [104, 105] else none

/-- A filesystem with `/r/foo/index.html` present, to probe whether a
request for `/foo/` gets index substitution. -/
def fsC8 : FileSystem := fun p =>
  if p = "/r/foo/index.html" then some [104] else none

/-- Program counter of the accept loop in `WebServer._listen` (httpd.py
lines 123-133): about to call `accept`, or blocked in `wait_completion`. -/
inductive LPC where
  | atAccept
  | atJoin
deriving DecidableEq

/-- Global state of listener, queue and workers.  `nextConn` numbers the
accepted connections; `queue` holds enqueued but not yet dequeued jobs in
FIFO order; `running` holds the jobs currently being executed by workers;
`unfinished` is the counter behind `Queue.join`: incremented by `put`
(inside `add_task`), decremented by `task_done` (after the handler ran). -/
structure PoolState where
  lpc : LPC
  nextConn : Nat
  queue : List Nat
  running : List Nat
  unfinished : Nat
deriving DecidableEq

/-- Observable events: the listener accepts (and enqueues) connection `i`;
a worker dequeues job `i` and starts executing the handler on it; a worker
finishes executing job `i` (all socket reads of connection `i` happened
between `start i` and `finish i`) and calls `task_done`; `wait_completion`
returns to the listener. -/
inductive PoolEv where
  | accept (i : Nat)
  | start (i : Nat)
  | finish (i : Nat)
  | joinRet
deriving DecidableEq

/-- Initial state: listener about to accept connection 0, nothing queued. -/
def initPool : PoolState :=
  ⟨LPC.atAccept, 0, [], [], 0⟩

/-- One interleaving step.  The model does not bound the worker count or
the queue capacity, so its traces are a superset of those of the real
bounded pool; the safety property proved below therefore also holds for
the real pool. -/
inductive PoolStep : PoolState → PoolEv → PoolState → Prop where
  | accept (s : PoolState) (h : s.lpc = LPC.atAccept) :
      PoolStep s (PoolEv.accept s.nextConn)
        ⟨LPC.atJoin, s.nextConn + 1, s.queue ++ [s.nextConn], s.running,
         s.unfinished + 1⟩
  | start (s : PoolState) (i : Nat) (q : List Nat) (h : s.queue = i :: q) :
      PoolStep s (PoolEv.start i)
        ⟨s.lpc, s.nextConn, q, i :: s.running, s.unfinished⟩
  | finish (s : PoolState) (i : Nat) (h : i ∈ s.running) :
      PoolStep s (PoolEv.finish i)
        ⟨s.lpc, s.nextConn, s.queue, s.running.erase i, s.unfinished - 1⟩
  | joinRet (s : PoolState) (h1 : s.lpc = LPC.atJoin) (h2 : s.unfinished = 0) :
      PoolStep s PoolEv.joinRet
        ⟨LPC.atAccept, s.nextConn, s.queue, s.running, s.unfinished⟩

/-- Reachability: `PoolReach tr s` means the system can run from the
initial state to `s`, emitting the event trace `tr`. -/
inductive PoolReach : List PoolEv → PoolState → Prop where
  | init : PoolReach [] initPool
  | step {tr : List PoolEv} {s : PoolState} {e : PoolEv} {s' : PoolState} :
      PoolReach tr s → PoolStep s e s' → PoolReach (tr ++ [e]) s'

/-- The inductive invariant of the accept loop: the join counter counts the
queued and running jobs; when the listener is back at `accept`, nothing is
queued or running; every accepted connection is queued, running, or has
finished; and every connection smaller than an accepted one finished before
that accept. -/
def PoolInv (tr : List PoolEv) (s : PoolState) : Prop :=
  s.unfinished = s.queue.length + s.running.length ∧
  (s.lpc = LPC.atAccept → s.queue = [] ∧ s.running = []) ∧
  (∀ i, i < s.nextConn →
    i ∈ s.queue ∨ i ∈ s.running ∨ PoolEv.finish i ∈ tr) ∧
  (∀ t1 j t2, tr = t1 ++ PoolEv.accept j :: t2 →
    ∀ i, i < j → PoolEv.finish i ∈ t1)

theorem splitChars_ne_nil (sep : Char) (l : List Char) :
    splitChars sep l ≠ [] := by
  cases l with
  | nil => simp [splitChars]
  | cons c cs =>
    simp only [splitChars]
    split
    · simp
    · split <;> simp

theorem splitChars_singleton (sep : Char) (l m : List Char)
    (h : splitChars sep l = [m]) : m = l := by
  induction l generalizing m with
  | nil =>
    simp [splitChars] at h
    exact h
  | cons c cs ih =>
    simp only [splitChars] at h
    cases hs : splitChars sep cs with
    | nil => exact absurd hs (splitChars_ne_nil sep cs)
    | cons r rs =>
      rw [hs] at h
      by_cases hc : c = sep
      · simp [hc] at h
      · simp only [if_neg hc, List.cons_eq_cons] at h
        obtain ⟨h1, h2⟩ := h
        have hr : r = cs := ih r (by rw [hs, h2])
        rw [← h1, hr]

theorem pySplit_ne_nil (sep : Char) (s : String) : pySplit sep s ≠ [] := by
  simp only [pySplit, ne_eq, List.map_eq_nil_iff]
  exact splitChars_ne_nil sep s.data

theorem pySplit_singleton (sep : Char) (s t : String)
    (h : pySplit sep s = [t]) : t = s := by
  simp only [pySplit] at h
  cases hs : splitChars sep s.data with
  | nil => exact absurd hs (splitChars_ne_nil sep s.data)
  | cons r rs =>
    rw [hs] at h
    simp only [List.map_cons, List.cons_eq_cons] at h
    obtain ⟨hr, hrs⟩ := h
    have hrsnil : rs = [] := by
      cases rs with
      | nil => rfl
      | cons a as => simp at hrs
    have hrd : r = s.data := splitChars_singleton sep s.data r (by rw [hs, hrsnil])
    rw [← hr, hrd]

theorem append_singleton_split {α : Type} (tr t1 t2 : List α) (x e : α)
    (h : tr ++ [e] = t1 ++ x :: t2) :
    (t1 = tr ∧ x = e ∧ t2 = []) ∨
    (∃ t2a, t2 = t2a ++ [e] ∧ tr = t1 ++ x :: t2a) := by
  rcases List.eq_nil_or_concat t2 with h2 | ⟨t2a, b, rfl⟩
  · subst h2
    have h3 := List.append_inj' h (by simp)
    exact Or.inl ⟨h3.1.symm, by simpa using h3.2.symm, rfl⟩
  · have heq : tr ++ [e] = (t1 ++ x :: t2a) ++ [b] := by
      rw [h]
      simp [List.concat_eq_append]
    have h2 := List.append_inj' heq (by simp)
    have hb : b = e := by simpa using h2.2.symm
    right
    exact ⟨t2a, by rw [hb, List.concat_eq_append], h2.1⟩

theorem poolInv_of_reach (tr : List PoolEv) (s : PoolState)
    (h : PoolReach tr s) : PoolInv tr s := by
  induction h with
  | init =>
    refine ⟨rfl, fun _ => ⟨rfl, rfl⟩, ?_, ?_⟩
    · intro i hi
      simp [initPool] at hi
    · intro t1 j t2 heq
      exact absurd heq (by simp)
  | step hr hstep ih =>
    rename_i tr0 s0 e0 s1
    obtain ⟨ih1, ih2, ih3, ih4⟩ := ih
    cases hstep with
    | accept hlpc =>
      refine ⟨by simp [ih1]; omega, by simp, ?_, ?_⟩
      · intro i hi
        rcases Nat.lt_succ_iff_lt_or_eq.mp hi with hlt | heq
        · rcases ih3 i hlt with hq | hrun | hf
          · exact Or.inl (List.mem_append_left _ hq)
          · exact Or.inr (Or.inl hrun)
          · exact Or.inr (Or.inr (List.mem_append_left _ hf))
        · subst heq
          exact Or.inl (by simp)
      · intro t1 j t2 heq i hij
        rcases append_singleton_split _ _ _ _ _ heq with ⟨ht1, hx, _⟩ | ⟨t2a, _, htr⟩
        · injection hx with hj
          subst hj
          subst ht1
          rcases ih3 i hij with hq | hrun | hf
          · rw [(ih2 hlpc).1] at hq
            simp at hq
          · rw [(ih2 hlpc).2] at hrun
            simp at hrun
          · exact hf
        · exact ih4 t1 j t2a htr i hij
    | start i q hq =>
      refine ⟨?_, ?_, ?_, ?_⟩
      · simp [ih1, hq]
        omega
      · intro hlpc
        rw [(ih2 hlpc).1] at hq
        simp at hq
      · intro i2 hi2
        rcases ih3 i2 hi2 with hq2 | hrun | hf
        · rw [hq] at hq2
          rcases List.mem_cons.mp hq2 with heq | hmem
          · subst heq
            exact Or.inr (Or.inl (by simp))
          · exact Or.inl hmem
        · exact Or.inr (Or.inl (List.mem_cons_of_mem _ hrun))
        · exact Or.inr (Or.inr (List.mem_append_left _ hf))
      · intro t1 j t2 heq i2 hij
        rcases append_singleton_split _ _ _ _ _ heq with ⟨_, hx, _⟩ | ⟨t2a, _, htr⟩
        · exact PoolEv.noConfusion hx
        · exact ih4 t1 j t2a htr i2 hij
    | finish i hmem =>
      have hpos : 0 < s0.running.length :=
        List.length_pos.mpr (List.ne_nil_of_mem hmem)
      refine ⟨?_, ?_, ?_, ?_⟩
      · show s0.unfinished - 1 = s0.queue.length + (s0.running.erase i).length
        rw [List.length_erase_of_mem hmem]
        omega
      · intro hlpc
        rw [(ih2 hlpc).2] at hmem
        simp at hmem
      · intro i2 hi2
        rcases ih3 i2 hi2 with hq2 | hrun | hf
        · exact Or.inl hq2
        · by_cases hii : i2 = i
          · subst hii
            exact Or.inr (Or.inr (by simp))
          · exact Or.inr (Or.inl (List.mem_erase_of_ne hii |>.mpr hrun))
        · exact Or.inr (Or.inr (List.mem_append_left _ hf))
      · intro t1 j t2 heq i2 hij
        rcases append_singleton_split _ _ _ _ _ heq with ⟨_, hx, _⟩ | ⟨t2a, _, htr⟩
        · exact PoolEv.noConfusion hx
        · exact ih4 t1 j t2a htr i2 hij
    | joinRet hlpc hzero =>
      refine ⟨ih1, ?_, ?_, ?_⟩
      · intro _
        rw [hzero] at ih1
        show s0.queue = [] ∧ s0.running = []
        exact ⟨List.length_eq_zero.mp (by omega), List.length_eq_zero.mp (by omega)⟩
      · intro i2 hi2
        rcases ih3 i2 hi2 with hq2 | hrun | hf
        · exact Or.inl hq2
        · exact Or.inr (Or.inl hrun)
        · exact Or.inr (Or.inr (List.mem_append_left _ hf))
      · intro t1 j t2 heq i2 hij
        rcases append_singleton_split _ _ _ _ _ heq with ⟨_, hx, _⟩ | ⟨t2a, _, htr⟩
        · exact PoolEv.noConfusion hx
        · exact ih4 t1 j t2a htr i2 hij

/-- C10: after enqueuing each accepted connection, the accept loop blocks
in `wait_completion` until every job in the task queue has been fully
executed before calling `accept` again: in every trace of the system, each
connection `i` accepted before connection `j` has finished (handler run to
completion, including all its socket reads) strictly before the accept of
`j`. -/
theorem C10_sequential_accept (tr : List PoolEv) (s : PoolState)
    (hr : PoolReach tr s) (t1 t2 : List PoolEv) (j : Nat)
    (hsplit : tr = t1 ++ PoolEv.accept j :: t2) (i : Nat) (hij : i < j) :
    PoolEv.finish i ∈ t1 :=
  (poolInv_of_reach tr s hr).2.2.2 t1 j t2 hsplit i hij

theorem C10_witness :
    PoolEv.finish 0 ∈
      [PoolEv.accept 0, PoolEv.start 0, PoolEv.finish 0, PoolEv.joinRet] := by
  have h1 : PoolReach [PoolEv.accept 0] ⟨LPC.atJoin, 1, [0], [], 1⟩ :=
    PoolReach.step PoolReach.init (PoolStep.accept initPool rfl)
  have h2 : PoolReach [PoolEv.accept 0, PoolEv.start 0]
      ⟨LPC.atJoin, 1, [], [0], 1⟩ :=
    PoolReach.step h1 (PoolStep.start _ 0 [] rfl)
  have h3 : PoolReach [PoolEv.accept 0, PoolEv.start 0, PoolEv.finish 0]
      ⟨LPC.atJoin, 1, [], [], 0⟩ :=
    PoolReach.step h2 (PoolStep.finish _ 0 (by simp))
  have h4 : PoolReach
      [PoolEv.accept 0, PoolEv.start 0, PoolEv.finish 0, PoolEv.joinRet]
      ⟨LPC.atAccept, 1, [], [], 0⟩ :=
    PoolReach.step h3 (PoolStep.joinRet _ rfl rfl)
  have h5 : PoolReach
      [PoolEv.accept 0, PoolEv.start 0, PoolEv.finish 0, PoolEv.joinRet,
       PoolEv.accept 1]
      ⟨LPC.atJoin, 2, [1], [], 1⟩ :=
    PoolReach.step h4 (PoolStep.accept _ rfl)
  exact C10_sequential_accept _ _ h5
    [PoolEv.accept 0, PoolEv.start 0, PoolEv.finish 0, PoolEv.joinRet]
    [] 1 rfl 0 (by decide)

/-- C1: the claim requires a 404 for paths escaping the document root, but
the code has no normalization or prefix check: for the request
`GET /../../etc/passwd HTTP/1.1` against document root `/var/www`, the
concatenated path resolves to `/etc/passwd` and the handler serves that
file with status 200 and its full contents as the body. -/
theorem C1_traversal_serves_file :
    handle_client fsC1 "/var/www" "T" "GET /../../etc/passwd HTTP/1.1" =
      Except.ok [SockAction.send
        ⟨["HTTP/1.1 200 OK\n", "Content-length: 31\n",
          "Content-type: text/html\n", "Date: T\n",
          "Server: Mikhail Samoylov for Otus Python Server\n",
          "Connection: close\n\n"], passwdContent⟩,
        SockAction.close] := by
  rfl

/-- C2: the claim requires the status line `HTTP/1.1 405` on non-GET/HEAD
requests, but `_generate_headers` only has branches for 200 and 404, so the
405 response carries no status line at all: its header begins directly with
the Date line.  The body is the fixed 405 error body, as claimed. -/
theorem C2_405_missing_status_line :
    handle_client fsEmpty "/var/www" "T" "DELETE /index.html HTTP/1.1" =
      Except.ok [SockAction.send
        ⟨["Date: T\n", "Server: Mikhail Samoylov for Otus Python Server\n",
          "Connection: close\n\n"], err405Body⟩,
        SockAction.close] := by
  rfl

/-- C3: the claim requires Content-Length on every response, but the 404
(and 405) paths of `_generate_headers` emit no Content-Length header: the
full header list of a 404 response is shown and contains no chunk starting
with `Content-length`. -/
theorem C3_404_lacks_content_length :
    handle_client fsEmpty "/r" "T" "GET /missing.html HTTP/1.1" =
      Except.ok [SockAction.send
        ⟨["HTTP/1.1 404 Not Found\n", "Date: T\n",
          "Server: Mikhail Samoylov for Otus Python Server\n",
          "Connection: close\n\n"], err404Body⟩,
        SockAction.close] ∧
    hasContentLength ["HTTP/1.1 404 Not Found\n", "Date: T\n",
      "Server: Mikhail Samoylov for Otus Python Server\n",
      "Connection: close\n\n"] = false := by
  exact ⟨rfl, rfl⟩

/-- C5 counterexample: on an empty read the handler breaks out of its loop
without calling `client.close()`: it performs no socket action at all, so
in particular no close.  (It also writes no bytes, as the claim states.) -/
theorem C5_no_close_on_empty_read :
    handle_client fsEmpty "/r" "T" "" = Except.ok [] ∧
    bytesWritten (actionsOf (handle_client fsEmpty "/r" "T" "")) = [] ∧
    SockAction.close ∉ actionsOf (handle_client fsEmpty "/r" "T" "") := by
  refine ⟨rfl, rfl, ?_⟩
  decide

/-- C5 amended: when zero bytes are read from the connection, the handler
writes no response bytes and performs no socket action at all; it does not
explicitly close the connection, it simply returns. -/
theorem C5_empty_read_no_actions (fs : FileSystem) (root tnow : String) :
    handle_client fs root tnow "" = Except.ok [] :=
  rfl

/-- C6 counterexample: the byte sequence for the bare token `GET` decodes
fine but makes `data.split(' ')[1]` raise `IndexError`, and the single
byte `0x80` is not valid UTF-8, so `recv().decode()` raises
`UnicodeDecodeError`; in both cases an exception escapes request parsing
(the worker loop catches it) instead of a sentinel being returned. -/
theorem C6_bare_get_raises :
    handle_connection fsEmpty "/r" "T" [71, 69, 84] =
      Except.error "IndexError: list index out of range" ∧
    handle_connection fsEmpty "/r" "T" [128] =
      Except.error "UnicodeDecodeError" := by
  exact ⟨rfl, rfl⟩

theorem handle_client_raises_iff (fs : FileSystem) (root tnow data : String) :
    (∃ e, handle_client fs root tnow data = Except.error e) ↔
      data = "GET" ∨ data = "HEAD" := by
  constructor
  · rintro ⟨e, he⟩
    simp only [handle_client] at he
    split at he
    · simp at he
    · split at he
      · rename_i hd hm
        split at he
        · rename_i hidx
          have hlen : (pySplit ' ' data).length ≤ 1 :=
            List.getElem?_eq_none_iff.mp hidx
          have hne := pySplit_ne_nil ' ' data
          have hlen1 : (pySplit ' ' data).length = 1 := by
            have := List.length_pos.mpr hne
            omega
          obtain ⟨t, ht⟩ := List.length_eq_one.mp hlen1
          have hts : t = data := pySplit_singleton ' ' data t ht
          rw [ht] at hm
          simp only [List.headD_cons] at hm
          rw [hts] at hm
          exact hm
        · simp at he
      · simp at he
  · rintro (rfl | rfl)
    · exact ⟨_, rfl⟩
    · exact ⟨_, rfl⟩

/-- C6 amended: for every byte sequence read from a connection, the
handler either returns a list of socket actions or the empty-request
outcome, and an exception escapes request handling exactly when the bytes
are not valid UTF-8 (`recv().decode()` raises `UnicodeDecodeError`) or
they decode to the bare token `GET` or `HEAD` (a GET/HEAD method token
with no second space-separated token, which makes `data.split(' ')[1]`
raise `IndexError`). -/
theorem C6_parse_raises_iff (fs : FileSystem) (root tnow : String)
    (bs : List Nat) :
    (∃ e, handle_connection fs root tnow bs = Except.error e) ↔
      pyDecode bs = none ∨ pyDecode bs = some "GET" ∨
        pyDecode bs = some "HEAD" := by
  cases hd : pyDecode bs with
  | none => simp [handle_connection, hd]
  | some data => simp [handle_connection, hd, handle_client_raises_iff]

theorem C6_witness :
    ∃ e, handle_connection fsEmpty "/r" "T" [72, 69, 65, 68] = Except.error e :=
  (C6_parse_raises_iff fsEmpty "/r" "T" [72, 69, 65, 68]).mpr
    (Or.inr (Or.inr rfl))

/-- C4: for every GET request whose resolved target exists in the
filesystem, the handler responds 200 OK with a `Content-length` header
equal to the byte count of the file and a body byte-identical to the file
contents. -/
theorem C4_get_existing_file (fs : FileSystem) (root tnow rawPath : String)
    (content : List Nat)
    (h : fsOpen fs (root ++ resolve_target rawPath) = some content) :
    serve_request fs root tnow "GET" rawPath =
      [SockAction.send
        ⟨["HTTP/1.1 200 OK\n",
          "Content-length: " ++ toString content.length ++ "\n",
          "Content-type: " ++ mimetype_of (root ++ resolve_target rawPath) ++ "\n",
          "Date: " ++ tnow ++ "\n",
          "Server: Mikhail Samoylov for Otus Python Server\n",
          "Connection: close\n\n"], content⟩,
       SockAction.close] := by
  simp [serve_request, h, generate_headers, getsize]

theorem C4_witness :
    serve_request fsDoc "/r" "T" "GET" "/" =
      [SockAction.send
        ⟨["HTTP/1.1 200 OK\n",
          "Content-length: " ++ toString ([104, 105] : List Nat).length ++ "\n",
          "Content-type: " ++ mimetype_of ("/r" ++ resolve_target "/") ++ "\n",
          "Date: T\n",
          "Server: Mikhail Samoylov for Otus Python Server\n",
          "Connection: close\n\n"], [104, 105]⟩,
       SockAction.close] :=
  C4_get_existing_file fsDoc "/r" "T" "/" [104, 105] rfl

/-- C9: for every HEAD request whose resolved target exists, the response
body is empty and the header chunks (status line included) are identical
to those of the GET response for the same path at the same time. -/
theorem C9_head_matches_get (fs : FileSystem) (root tnow rawPath : String)
    (content : List Nat)
    (h : fsOpen fs (root ++ resolve_target rawPath) = some content) :
    ∃ hdr : List String,
      serve_request fs root tnow "GET" rawPath =
        [SockAction.send ⟨hdr, content⟩, SockAction.close] ∧
      serve_request fs root tnow "HEAD" rawPath =
        [SockAction.send ⟨hdr, []⟩, SockAction.close] := by
  refine ⟨generate_headers fs tnow 200 (root ++ resolve_target rawPath), ?_, ?_⟩ <;>
    simp [serve_request, h]

theorem C9_witness :
    ∃ hdr : List String,
      serve_request fsDoc "/r" "T" "GET" "/" =
        [SockAction.send ⟨hdr, [104, 105]⟩, SockAction.close] ∧
      serve_request fsDoc "/r" "T" "HEAD" "/" =
        [SockAction.send ⟨hdr, []⟩, SockAction.close] :=
  C9_head_matches_get fsDoc "/r" "T" "/" [104, 105] rfl

/-- C7 counterexample: a 200 response emits Content-length and Content-type
directly after the status line and only then Date, Server and Connection,
not the order status line, Date, Server, Content-Length, Content-Type,
Connection stated by the claim. -/
theorem C7_order_counterexample :
    handle_client fsDoc "/r" "T" "GET / HTTP/1.1" =
      Except.ok [SockAction.send
        ⟨["HTTP/1.1 200 OK\n", "Content-length: 2\n",
          "Content-type: text/html\n", "Date: T\n",
          "Server: Mikhail Samoylov for Otus Python Server\n",
          "Connection: close\n\n"], [104, 105]⟩,
        SockAction.close] ∧
    (["HTTP/1.1 200 OK\n", "Content-length: 2\n",
      "Content-type: text/html\n", "Date: T\n",
      "Server: Mikhail Samoylov for Otus Python Server\n",
      "Connection: close\n\n"] : List String) ≠
      ["HTTP/1.1 200 OK\n", "Date: T\n",
       "Server: Mikhail Samoylov for Otus Python Server\n",
       "Content-length: 2\n", "Content-type: text/html\n",
       "Connection: close\n\n"] := by
  exact ⟨rfl, by decide⟩

/-- C7 amended: the header chunks of every response, tied to its outcome:
a 200 response emits exactly the status line, Content-Length, Content-Type,
Date, Server and Connection: close (in that order); a 404 response exactly
the status line, Date, Server and Connection: close; a 405 response
exactly Date, Server and Connection: close with no status line; the final
Connection chunk carries the blank line and the body follows it. -/
theorem C7_header_shape :
    (∀ (fs : FileSystem) (root tnow method rawPath : String) (c : List Nat),
      fsOpen fs (root ++ resolve_target rawPath) = some c →
      serve_request fs root tnow method rawPath =
        [SockAction.send
          ⟨["HTTP/1.1 200 OK\n",
            "Content-length: " ++ toString c.length ++ "\n",
            "Content-type: " ++ mimetype_of (root ++ resolve_target rawPath) ++ "\n",
            "Date: " ++ tnow ++ "\n",
            "Server: Mikhail Samoylov for Otus Python Server\n",
            "Connection: close\n\n"],
           if method = "GET" then c else []⟩,
         SockAction.close]) ∧
    (∀ (fs : FileSystem) (root tnow method rawPath : String),
      fsOpen fs (root ++ resolve_target rawPath) = none →
      serve_request fs root tnow method rawPath =
        [SockAction.send
          ⟨["HTTP/1.1 404 Not Found\n",
            "Date: " ++ tnow ++ "\n",
            "Server: Mikhail Samoylov for Otus Python Server\n",
            "Connection: close\n\n"],
           if method = "GET" then err404Body else []⟩,
         SockAction.close]) ∧
    (∀ (fs : FileSystem) (root tnow data : String),
      data ≠ "" →
      ¬((pySplit ' ' data).headD "" = "GET" ∨
        (pySplit ' ' data).headD "" = "HEAD") →
      handle_client fs root tnow data =
        Except.ok [SockAction.send
          ⟨["Date: " ++ tnow ++ "\n",
            "Server: Mikhail Samoylov for Otus Python Server\n",
            "Connection: close\n\n"], err405Body⟩,
         SockAction.close]) := by
  refine ⟨?_, ?_, ?_⟩
  · intro fs root tnow method rawPath c h
    simp [serve_request, h, generate_headers, getsize]
  · intro fs root tnow method rawPath h
    simp [serve_request, h, generate_headers]
  · intro fs root tnow data hd hm
    simp only [handle_client, if_neg hd, if_neg hm]
    simp [generate_headers]

theorem C7_witness :
    serve_request fsEmpty "/r" "T" "GET" "/x.css" =
      [SockAction.send
        ⟨["HTTP/1.1 404 Not Found\n",
          "Date: " ++ "T" ++ "\n",
          "Server: Mikhail Samoylov for Otus Python Server\n",
          "Connection: close\n\n"],
         if "GET" = "GET" then err404Body else []⟩,
       SockAction.close] ∧
    handle_client fsEmpty "/r" "T" "PUT / HTTP/1.1" =
      Except.ok [SockAction.send
        ⟨["Date: " ++ "T" ++ "\n",
          "Server: Mikhail Samoylov for Otus Python Server\n",
          "Connection: close\n\n"], err405Body⟩,
       SockAction.close] :=
  ⟨C7_header_shape.2.1 fsEmpty "/r" "T" "GET" "/x.css" rfl,
   C7_header_shape.2.2 fsEmpty "/r" "T" "PUT / HTTP/1.1" (by decide) (by decide)⟩

/-- C8 counterexample: the path `/foo/` ends with `/` but gets no index
substitution: resolution leaves it unchanged and the request is answered
404 even though `/r/foo/index.html` exists in the filesystem. -/
theorem C8_no_general_index_substitution :
    resolve_target "/foo/" = "/foo/" ∧
    serve_request fsC8 "/r" "T" "GET" "/foo/" =
      [SockAction.send
        ⟨["HTTP/1.1 404 Not Found\n", "Date: T\n",
          "Server: Mikhail Samoylov for Otus Python Server\n",
          "Connection: close\n\n"], err404Body⟩,
       SockAction.close] ∧
    fsOpen fsC8 ("/r" ++ "/foo/index.html") = some [104] := by
  exact ⟨rfl, rfl, rfl⟩

/-- C8 amended: resolution maps the literal `/` to `/index.html` and the
literal `/directory/` to `/directory/index.html`; every other query-free
path is left unchanged (paths merely ending in `/` get no index file
appended); the filesystem path then opened is the document root
concatenated with the resolved path. -/
theorem C8_resolution_amended :
    resolve_target "/" = "/index.html" ∧
    resolve_target "/directory/" = "/directory/index.html" ∧
    (∀ p : String, pySplit '?' p = [p] → p ≠ "/" → p ≠ "/directory/" →
      resolve_target p = p) ∧
    (∀ fs : FileSystem, ∀ root tnow rawPath : String, ∀ c : List Nat,
      fsOpen fs (root ++ resolve_target rawPath) = some c →
      serve_request fs root tnow "HEAD" rawPath =
        [SockAction.send
          ⟨generate_headers fs tnow 200 (root ++ resolve_target rawPath), []⟩,
         SockAction.close]) := by
  refine ⟨rfl, rfl, ?_, ?_⟩
  · intro p hp h1 h2
    simp only [resolve_target, hp, List.headD_cons]
    rw [if_neg h1, if_neg h2]
  · intro fs root tnow rawPath c h
    simp [serve_request, h]

theorem C8_witness :
    resolve_target "/about.html" = "/about.html" :=
  C8_resolution_amended.2.2.1 "/about.html" rfl (by decide) (by decide)
